import Mathlib

/-!
Shallow embedding of the mcresources core (`src/mcresources/utils.py`):
the resource-identifier resolver and the shape-normalization dialects
(item stacks, loot tables, recipe conditions), together with the static
geometry tables.  Python's dynamically-typed JSON-like values are embedded
as the inductive type `Json`; Python dicts become ordered association
lists, Python `None` becomes `Json.null`, and functions that can raise
`RuntimeError` return `Except String`.
-/

/-- Embedding of the dynamically typed JSON-like values the Python code
manipulates: `None`, strings, integers, booleans, lists (sequences) and
dicts (ordered mappings, embedded as ordered association lists). -/
inductive Json where
  | null : Json
  | str (s : String) : Json
  | num (n : Int) : Json
  | bool (b : Bool) : Json
  | arr (xs : List Json) : Json
  | obj (kvs : List (String × Json)) : Json

mutual

/-- Python's `str()` for containers quotes inner strings (`repr` style):
used to model `'Unknown object %s at ...' % str(data_in)` messages. -/
def pyRepr : Json → String
  | Json.null => "None"
  | Json.str s => "\x27" ++ s ++ "\x27"
  | Json.num n => toString n
  | Json.bool b => if b then "True" else "False"
  | Json.arr xs => "[" ++ String.intercalate ", " (pyReprList xs) ++ "]"
  | Json.obj kvs => "\x7b" ++ String.intercalate ", " (pyReprObj kvs) ++ "\x7d"

def pyReprList : List Json → List String
  | [] => []
  | x :: rest => pyRepr x :: pyReprList rest

def pyReprObj : List (String × Json) → List String
  | [] => []
  | (k, v) :: rest => ("\x27" ++ k ++ "\x27: " ++ pyRepr v) :: pyReprObj rest

end

/-- Python's `str()`: a top-level string is rendered without quotes,
anything else as its repr. -/
def pyStr : Json → String
  | Json.str s => s
  | j => pyRepr j

/-- `is_sequence` (utils.py line 153): a `Sequence` that is not a `str`.
Over the `Json` embedding exactly the `arr` constructor qualifies. -/
def is_sequence : Json → Bool
  | Json.arr _ => true
  | _ => false

/-- `[*flatten_list(container)]` (utils.py lines 128-137): recursively
flattens nested sequences into a flat list; strings and dicts are leaves
(never descended into). -/
def flattenJList : List Json → List Json
  | [] => []
  | Json.arr ys :: rest => flattenJList ys ++ flattenJList rest
  | x :: rest => x :: flattenJList rest

/-- The `ResourceLocation` namedtuple (a (domain, path) pair). -/
structure ResourceLocation where
  domain : String
  path : String
deriving DecidableEq

/-- `ResourceIdentifier = Union[ResourceLocation, Sequence[str], str]`:
the accepted inputs of `resource_location`.  A nested sequence is allowed
because `str_path` recurses. -/
inductive RId where
  | rl (domain path : String) : RId
  | str (s : String) : RId
  | seq (xs : List RId) : RId

/-- Whether an identifier input is an already-resolved `ResourceLocation`. -/
def RId.isRL : RId → Bool
  | RId.rl _ _ => true
  | _ => false

/-- Python's `s.split(c)` on the character list of `s`: splitting on every
occurrence of `c`, with `''.split(c) == ['']`. -/
def pySplit (c : Char) : List Char → List (List Char)
  | [] => [[]]
  | x :: xs =>
    if x = c then [] :: pySplit c xs
    else
      match pySplit c xs with
      | r0 :: rs => (x :: r0) :: rs
      | [] => [[x]]

/-- `data_in.split('/')` as a list of strings. -/
def py_split_str (c : Char) (s : String) : List String :=
  (pySplit c s.toList).map String.mk

mutual

/-- `str_path` (utils.py lines 99-106): a string splits on `/`; a sequence
maps `str_path` over its elements and flattens.  Each recursive result is
already a flat list of strings, so `[*flatten_list([...])]` is their
concatenation (`flatten`).  A `ResourceLocation` is a namedtuple, hence a
`Sequence` of its two string fields.  The unknown-object branch is
unreachable over `RId`, so the embedding is total. -/
def str_path : RId → List String
  | RId.str s => py_split_str '/' s
  | RId.rl d p => py_split_str '/' d ++ py_split_str '/' p
  | RId.seq xs => (str_path_seq xs).flatten

def str_path_seq : List RId → List (List String)
  | [] => []
  | x :: rest => str_path x :: str_path_seq rest

end

/-- Splits a character list at the first occurrence of `c`, returning the
parts before and after it; `none` when `c` does not occur.  Models
Python's `':' in joined` test together with `joined.index(':')`,
`joined[:i]`, `joined[i+1:]`. -/
def splitAtFirst (c : Char) : List Char → Option (List Char × List Char)
  | [] => none
  | x :: xs =>
      if x = c then some ([], xs)
      else
        match splitAtFirst c xs with
        | some (a, b) => some (x :: a, b)
        | none => none

/-- The `'/'.join(str_path(data))` text that `resource_location` splits. -/
def joined_path (data : RId) : String :=
  String.intercalate "/" (str_path data)

/-- `resource_location` (utils.py lines 64-88).  The varargs call is
modelled by an optional explicit domain: `resource_location(x)` is
`domain = none`, `resource_location(d, x)` is `domain = some d`; the
arity-error branch for zero or more than two arguments is thereby
unrepresentable.  A `ResourceLocation` input is returned unchanged;
otherwise the `/`-joined path text is split at the first `:` when one is
present, else the default domain (`minecraft` when none was supplied) is
used. -/
def resource_location (domain : Option String) (data : RId) : ResourceLocation :=
  match data with
  | RId.rl d p => ⟨d, p⟩
  | data =>
    let dom := domain.getD "minecraft"
    let joined := joined_path data
    match splitAtFirst ':' joined.toList with
    | some (pre, post) => ⟨String.mk pre, String.mk post⟩
    | none => ⟨dom, joined⟩

/-- Lookup in an embedded Python dict (`key in data_in` / `data_in[key]`).
Python dict keys are unique, so first-match lookup is faithful. -/
def jlookup : List (String × Json) → String → Option Json
  | [], _ => none
  | (k, v) :: rest, key => if k = key then some v else jlookup rest key

/-- `dict_get` (utils.py lines 140-150) with no `map_function`: the value
at `key` when present, else `default`. -/
def dict_get (kvs : List (String × Json)) (key : String) (default : Json) : Json :=
  match jlookup kvs key with
  | some v => v
  | none => default

/-- `dict_get` with a `map_function`: the (fallible) map function is
applied to the value only when the key is present; the default is
returned untransformed otherwise. -/
def dict_get_map (kvs : List (String × Json)) (key : String) (default : Json)
    (f : Json → Except String Json) : Except String Json :=
  match jlookup kvs key with
  | some v => f v
  | none => Except.ok default

mutual

/-- `recipe_condition` (utils.py lines 159-169): `None` passes through as
`None`; a string becomes `[{'type': s}]`; a dict is wrapped in a list; a
sequence recurses per element with `strict=True` when not already strict;
anything else (a sequence in strict mode included) raises. -/
def recipe_condition (data_in : Json) (strict : Bool) : Except String Json :=
  match data_in with
  | Json.null => Except.ok Json.null
  | Json.str s => Except.ok (Json.arr [Json.obj [("type", Json.str s)]])
  | Json.obj kvs => Except.ok (Json.arr [Json.obj kvs])
  | Json.arr xs =>
      if strict then
        Except.error ("Unknown object " ++ pyStr (Json.arr xs) ++ " at recipe_condition")
      else do
        let rs ← recipe_condition_seq xs
        Except.ok (Json.arr (flattenJList rs))
  | j => Except.error ("Unknown object " ++ pyStr j ++ " at recipe_condition")

/-- The list comprehension `[recipe_condition(c, True) for c in data_in]`
(evaluated left to right, first exception propagating). -/
def recipe_condition_seq : List Json → Except String (List Json)
  | [] => Except.ok []
  | x :: rest => do
      let r ← recipe_condition x true
      let rs ← recipe_condition_seq rest
      Except.ok (r :: rs)

end

/-- Python's `{'count': c, **m}`: the `count` key first, then the keys of
`m` in order, `m` overriding `count` if it also has that key. -/
def countMerge (c : Json) (m : List (String × Json)) : List (String × Json) :=
  if (jlookup m "count").isSome then m
  else ("count", c) :: m

/-- `item_stack` (utils.py lines 172-188): a string is a tag reference
when prefixed with the literal `tag!` marker (marker stripped) else a
plain item; a dict passes through; a 2-element sequence is
`(count, nested spec)` with the count merged under key `count`; any other
sequence length is an arity error; anything else raises.  Returns the
fields of the resulting Python dict. -/
def item_stack (data_in : Json) : Except String (List (String × Json)) :=
  match data_in with
  | Json.str s =>
      if s.take 4 = "tag!" then Except.ok [("tag", Json.str (s.drop 4))]
      else Except.ok [("item", Json.str s)]
  | Json.obj kvs => Except.ok kvs
  | Json.arr [a, b] => do
      let rest ← item_stack b
      Except.ok (countMerge a rest)
  | Json.arr _ => Except.error "An item stack as a sequence must have two entries (size, item)"
  | j => Except.error ("Unknown object " ++ pyStr j ++ " at item_stack")

/-- `[item_stack(s) for s in data_in]`, left to right. -/
def item_stack_seq : List Json → Except String (List Json)
  | [] => Except.ok []
  | x :: rest => do
      let r ← item_stack x
      let rs ← item_stack_seq rest
      Except.ok (Json.obj r :: rs)

/-- `item_stack_list` (utils.py lines 191-197): a string or dict becomes a
singleton list; a sequence maps `item_stack` over each element and
flattens; anything else raises. -/
def item_stack_list (data_in : Json) : Except String (List Json) :=
  match data_in with
  | Json.str s => do
      let r ← item_stack (Json.str s)
      Except.ok [Json.obj r]
  | Json.obj kvs => do
      let r ← item_stack (Json.obj kvs)
      Except.ok [Json.obj r]
  | Json.arr xs => do
      let rs ← item_stack_seq xs
      Except.ok (flattenJList rs)
  | j => Except.error ("Unknown object " ++ pyStr j ++ " at item_stack_list")

/-- `(k, item_stack(v)) for k, v in data_in.items()`, left to right. -/
def item_stack_dict_seq : List (String × Json) → Except String (List (String × Json))
  | [] => Except.ok []
  | (k, v) :: rest => do
      let r ← item_stack v
      let rs ← item_stack_dict_seq rest
      Except.ok ((k, Json.obj r) :: rs)

/-- `item_stack_dict` (utils.py lines 200-206): a dict maps `item_stack`
over its values; a string becomes `{default_char: item_stack(s)}`. -/
def item_stack_dict (data_in : Json) (default_char : String) :
    Except String (List (String × Json)) :=
  match data_in with
  | Json.obj kvs => item_stack_dict_seq kvs
  | Json.str s => do
      let r ← item_stack (Json.str s)
      Except.ok [(default_char, Json.obj r)]
  | j => Except.error ("Unknown object " ++ pyStr j ++ " at item_stack_dict")

/-- `('layer%d' % i, data_in[i]) for i in range(len(data_in))`. -/
def layerFields (xs : List Json) (i : Nat) : List (String × Json) :=
  match xs with
  | [] => []
  | x :: rest => ("layer" ++ toString i, x) :: layerFields rest (i + 1)

/-- `item_model_textures` (utils.py lines 209-217): a string becomes
`{'layer0': s}`; a sequence becomes numbered `layer%d` keys; a dict
passes through. -/
def item_model_textures (data_in : Json) : Except String (List (String × Json)) :=
  match data_in with
  | Json.str s => Except.ok [("layer0", Json.str s)]
  | Json.arr xs => Except.ok (layerFields xs 0)
  | Json.obj kvs => Except.ok kvs
  | j => Except.error ("Unknown object " ++ pyStr j ++ " at item_model_textures")

mutual

/-- `loot_function_list` (utils.py lines 310-322): a string becomes
`[{'function': s}]`; a sequence recurses and flattens; a dict is wrapped. -/
def loot_function_list (data_in : Json) : Except String (List Json) :=
  match data_in with
  | Json.str s => Except.ok [Json.obj [("function", Json.str s)]]
  | Json.arr xs => do
      let rs ← loot_function_list_seq xs
      Except.ok (flattenJList (rs.map Json.arr))
  | Json.obj kvs => Except.ok [Json.obj kvs]
  | j => Except.error ("Unknown object " ++ pyStr j ++ " at loot_function_list")

/-- `[loot_function_list(p) for p in data_in]`, left to right. -/
def loot_function_list_seq : List Json → Except String (List (List Json))
  | [] => Except.ok []
  | x :: rest => do
      let r ← loot_function_list x
      let rs ← loot_function_list_seq rest
      Except.ok (r :: rs)

end

mutual

/-- `loot_condition_list` (utils.py lines 325-337): a string becomes
`[{'condition': s}]`; a sequence recurses and flattens; a dict is wrapped. -/
def loot_condition_list (data_in : Json) : Except String (List Json) :=
  match data_in with
  | Json.str s => Except.ok [Json.obj [("condition", Json.str s)]]
  | Json.arr xs => do
      let rs ← loot_condition_list_seq xs
      Except.ok (flattenJList (rs.map Json.arr))
  | Json.obj kvs => Except.ok [Json.obj kvs]
  | j => Except.error ("Unknown object " ++ pyStr j ++ " at loot_condition_list")

/-- `[loot_condition_list(p) for p in data_in]`, left to right. -/
def loot_condition_list_seq : List Json → Except String (List (List Json))
  | [] => Except.ok []
  | x :: rest => do
      let r ← loot_condition_list x
      let rs ← loot_condition_list_seq rest
      Except.ok (r :: rs)

end

/-- `loot_default_conditions` (utils.py lines 340-344): kind `block` gains
the survives-explosion condition; every other kind gets `None`. -/
def loot_default_conditions (loot_type : String) : Json :=
  if loot_type = "block" then
    Json.arr [Json.obj [("condition", Json.str "minecraft:survives_explosion")]]
  else
    Json.null

mutual

/-- `loot_entry_list` (utils.py lines 283-307): a string becomes a tag
entry when it carries the `tag!` marker, else an item entry; a sequence
recurses and flattens; a dict is normalized field by field through
`dict_get` (absent optional fields yielding the `None` default). -/
def loot_entry_list (data_in : Json) : Except String (List Json) :=
  match data_in with
  | Json.str s =>
      if s.take 4 = "tag!" then
        Except.ok [Json.obj [("type", Json.str "minecraft:tag"), ("name", Json.str (s.drop 4))]]
      else
        Except.ok [Json.obj [("type", Json.str "minecraft:item"), ("name", Json.str s)]]
  | Json.arr xs => do
      let rs ← loot_entry_list_seq xs
      Except.ok (flattenJList (rs.map Json.arr))
  | Json.obj kvs => do
      let conditions ← dict_get_map kvs "conditions" Json.null
        (fun v => do Except.ok (Json.arr (← loot_condition_list v)))
      let functions ← dict_get_map kvs "functions" Json.null
        (fun v => do Except.ok (Json.arr (← loot_function_list v)))
      Except.ok [Json.obj [
        ("type", dict_get kvs "type" (Json.str "item")),
        ("conditions", conditions),
        ("name", dict_get kvs "name" Json.null),
        ("children", dict_get kvs "children" Json.null),
        ("expand", dict_get kvs "expand" Json.null),
        ("functions", functions),
        ("weight", dict_get kvs "weight" Json.null),
        ("quality", dict_get kvs "quality" Json.null)]]
  | j => Except.error ("Unknown object " ++ pyStr j ++ " at loot_entry_list")

/-- `[loot_entry_list(p) for p in data_in]`, left to right. -/
def loot_entry_list_seq : List Json → Except String (List (List Json))
  | [] => Except.ok []
  | x :: rest => do
      let r ← loot_entry_list x
      let rs ← loot_entry_list_seq rest
      Except.ok (r :: rs)

end

mutual

/-- `loot_pool_list` (utils.py lines 255-280): a string becomes a single
pool with one roll, the string's entry list, and the loot-kind's default
conditions; a dict becomes a single pool with each field independently
defaulted through `dict_get`; a sequence recurses and flattens. -/
def loot_pool_list (data_in : Json) (loot_type : String) : Except String (List Json) :=
  match data_in with
  | Json.str s => do
      let entries ← loot_entry_list (Json.str s)
      Except.ok [Json.obj [
        ("name", Json.str "loot_pool"),
        ("rolls", Json.num 1),
        ("entries", Json.arr entries),
        ("conditions", loot_default_conditions loot_type)]]
  | Json.obj kvs => do
      let entries ← dict_get_map kvs "entries" (Json.obj kvs)
        (fun v => do Except.ok (Json.arr (← loot_entry_list v)))
      let conditions ← dict_get_map kvs "conditions" (loot_default_conditions loot_type)
        (fun v => do Except.ok (Json.arr (← loot_condition_list v)))
      let functions ← dict_get_map kvs "functions" Json.null
        (fun v => do Except.ok (Json.arr (← loot_function_list v)))
      Except.ok [Json.obj [
        ("name", Json.str "loot_pool"),
        ("rolls", dict_get kvs "rolls" (Json.num 1)),
        ("bonus_rolls", dict_get kvs "bonus_rolls" Json.null),
        ("entries", entries),
        ("conditions", conditions),
        ("functions", functions)]]
  | Json.arr xs => do
      let rs ← loot_pool_list_seq xs loot_type
      Except.ok (flattenJList (rs.map Json.arr))
  | j => Except.error ("Unknown object " ++ pyStr j ++ " at loot_pool_list")

/-- `[loot_pool_list(p, loot_type) for p in data_in]`, left to right. -/
def loot_pool_list_seq : List Json → String → Except String (List (List Json))
  | [], _ => Except.ok []
  | x :: rest, loot_type => do
      let r ← loot_pool_list x loot_type
      let rs ← loot_pool_list_seq rest loot_type
      Except.ok (r :: rs)

end

mutual

/-- `del_none` (utils.py lines 43-52): recursively drops dict entries and
sequence elements whose value is `None`; a bare `None` at the top level
raises. -/
def del_none : Json → Except String Json
  | Json.obj kvs => do
      let r ← del_none_obj kvs
      Except.ok (Json.obj r)
  | Json.arr xs => do
      let r ← del_none_arr xs
      Except.ok (Json.arr r)
  | Json.null => Except.error "None passed to `del_none`, should not be possible."
  | j => Except.ok j

/-- `(key, del_none(value)) for key, value in data_in.items() if value is not None`. -/
def del_none_obj : List (String × Json) → Except String (List (String × Json))
  | [] => Except.ok []
  | (_, Json.null) :: rest => del_none_obj rest
  | (k, v) :: rest => do
      let v2 ← del_none v
      let r ← del_none_obj rest
      Except.ok ((k, v2) :: r)

/-- `[del_none(p) for p in data_in if p is not None]`. -/
def del_none_arr : List Json → Except String (List Json)
  | [] => Except.ok []
  | Json.null :: rest => del_none_arr rest
  | v :: rest => do
      let v2 ← del_none v
      let r ← del_none_arr rest
      Except.ok (v2 :: r)

end

mutual

/-- `true` when the value contains no `None` anywhere: not as the value
itself, not as a dict value and not as a sequence element, recursively. -/
def noNull : Json → Bool
  | Json.null => false
  | Json.obj kvs => noNullObj kvs
  | Json.arr xs => noNullArr xs
  | _ => true

def noNullObj : List (String × Json) → Bool
  | [] => true
  | (_, v) :: rest => noNull v && noNullObj rest

def noNullArr : List Json → Bool
  | [] => true
  | v :: rest => noNull v && noNullArr rest

end

/-- `stairs_variants` (utils.py lines 358-400): the literal 40-entry
blockstate variant table for stairs, keyed by
`facing=F,half=H,shape=S` with rotation angles and `uvlock` flags. -/
def stairs_variants (stairs stairs_inner stairs_outer : String) : List (String × Json) :=
  [("facing=east,half=bottom,shape=straight", Json.obj [("model", Json.str stairs)]),
   ("facing=west,half=bottom,shape=straight", Json.obj [("model", Json.str stairs), ("y", Json.num 180), ("uvlock", Json.bool true)]),
   ("facing=south,half=bottom,shape=straight", Json.obj [("model", Json.str stairs), ("y", Json.num 90), ("uvlock", Json.bool true)]),
   ("facing=north,half=bottom,shape=straight", Json.obj [("model", Json.str stairs), ("y", Json.num 270), ("uvlock", Json.bool true)]),
   ("facing=east,half=bottom,shape=outer_right", Json.obj [("model", Json.str stairs_outer)]),
   ("facing=west,half=bottom,shape=outer_right", Json.obj [("model", Json.str stairs_outer), ("y", Json.num 180), ("uvlock", Json.bool true)]),
   ("facing=south,half=bottom,shape=outer_right", Json.obj [("model", Json.str stairs_outer), ("y", Json.num 90), ("uvlock", Json.bool true)]),
   ("facing=north,half=bottom,shape=outer_right", Json.obj [("model", Json.str stairs_outer), ("y", Json.num 270), ("uvlock", Json.bool true)]),
   ("facing=east,half=bottom,shape=outer_left", Json.obj [("model", Json.str stairs_outer), ("y", Json.num 270), ("uvlock", Json.bool true)]),
   ("facing=west,half=bottom,shape=outer_left", Json.obj [("model", Json.str stairs_outer), ("y", Json.num 90), ("uvlock", Json.bool true)]),
   ("facing=south,half=bottom,shape=outer_left", Json.obj [("model", Json.str stairs_outer)]),
   ("facing=north,half=bottom,shape=outer_left", Json.obj [("model", Json.str stairs_outer), ("y", Json.num 180), ("uvlock", Json.bool true)]),
   ("facing=east,half=bottom,shape=inner_right", Json.obj [("model", Json.str stairs_inner)]),
   ("facing=west,half=bottom,shape=inner_right", Json.obj [("model", Json.str stairs_inner), ("y", Json.num 180), ("uvlock", Json.bool true)]),
   ("facing=south,half=bottom,shape=inner_right", Json.obj [("model", Json.str stairs_inner), ("y", Json.num 90), ("uvlock", Json.bool true)]),
   ("facing=north,half=bottom,shape=inner_right", Json.obj [("model", Json.str stairs_inner), ("y", Json.num 270), ("uvlock", Json.bool true)]),
   ("facing=east,half=bottom,shape=inner_left", Json.obj [("model", Json.str stairs_inner), ("y", Json.num 270), ("uvlock", Json.bool true)]),
   ("facing=west,half=bottom,shape=inner_left", Json.obj [("model", Json.str stairs_inner), ("y", Json.num 90), ("uvlock", Json.bool true)]),
   ("facing=south,half=bottom,shape=inner_left", Json.obj [("model", Json.str stairs_inner)]),
   ("facing=north,half=bottom,shape=inner_left", Json.obj [("model", Json.str stairs_inner), ("y", Json.num 180), ("uvlock", Json.bool true)]),
   ("facing=east,half=top,shape=straight", Json.obj [("model", Json.str stairs), ("x", Json.num 180), ("uvlock", Json.bool true)]),
   ("facing=west,half=top,shape=straight", Json.obj [("model", Json.str stairs), ("x", Json.num 180), ("y", Json.num 180), ("uvlock", Json.bool true)]),
   ("facing=south,half=top,shape=straight", Json.obj [("model", Json.str stairs), ("x", Json.num 180), ("y", Json.num 90), ("uvlock", Json.bool true)]),
   ("facing=north,half=top,shape=straight", Json.obj [("model", Json.str stairs), ("x", Json.num 180), ("y", Json.num 270), ("uvlock", Json.bool true)]),
   ("facing=east,half=top,shape=outer_right", Json.obj [("model", Json.str stairs_outer), ("x", Json.num 180), ("y", Json.num 90), ("uvlock", Json.bool true)]),
   ("facing=west,half=top,shape=outer_right", Json.obj [("model", Json.str stairs_outer), ("x", Json.num 180), ("y", Json.num 270), ("uvlock", Json.bool true)]),
   ("facing=south,half=top,shape=outer_right", Json.obj [("model", Json.str stairs_outer), ("x", Json.num 180), ("y", Json.num 180), ("uvlock", Json.bool true)]),
   ("facing=north,half=top,shape=outer_right", Json.obj [("model", Json.str stairs_outer), ("x", Json.num 180), ("uvlock", Json.bool true)]),
   ("facing=east,half=top,shape=outer_left", Json.obj [("model", Json.str stairs_outer), ("x", Json.num 180), ("uvlock", Json.bool true)]),
   ("facing=west,half=top,shape=outer_left", Json.obj [("model", Json.str stairs_outer), ("x", Json.num 180), ("y", Json.num 180), ("uvlock", Json.bool true)]),
   ("facing=south,half=top,shape=outer_left", Json.obj [("model", Json.str stairs_outer), ("x", Json.num 180), ("y", Json.num 90), ("uvlock", Json.bool true)]),
   ("facing=north,half=top,shape=outer_left", Json.obj [("model", Json.str stairs_outer), ("x", Json.num 180), ("y", Json.num 270), ("uvlock", Json.bool true)]),
   ("facing=east,half=top,shape=inner_right", Json.obj [("model", Json.str stairs_inner), ("x", Json.num 180), ("y", Json.num 90), ("uvlock", Json.bool true)]),
   ("facing=west,half=top,shape=inner_right", Json.obj [("model", Json.str stairs_inner), ("x", Json.num 180), ("y", Json.num 270), ("uvlock", Json.bool true)]),
   ("facing=south,half=top,shape=inner_right", Json.obj [("model", Json.str stairs_inner), ("x", Json.num 180), ("y", Json.num 180), ("uvlock", Json.bool true)]),
   ("facing=north,half=top,shape=inner_right", Json.obj [("model", Json.str stairs_inner), ("x", Json.num 180), ("uvlock", Json.bool true)]),
   ("facing=east,half=top,shape=inner_left", Json.obj [("model", Json.str stairs_inner), ("x", Json.num 180), ("uvlock", Json.bool true)]),
   ("facing=west,half=top,shape=inner_left", Json.obj [("model", Json.str stairs_inner), ("x", Json.num 180), ("y", Json.num 180), ("uvlock", Json.bool true)]),
   ("facing=south,half=top,shape=inner_left", Json.obj [("model", Json.str stairs_inner), ("x", Json.num 180), ("y", Json.num 90), ("uvlock", Json.bool true)]),
   ("facing=north,half=top,shape=inner_left", Json.obj [("model", Json.str stairs_inner), ("x", Json.num 180), ("y", Json.num 270), ("uvlock", Json.bool true)])]

/-- The key texts of the stairs table, which do not depend on the three
model-path inputs. -/
def stairsKeys : List String :=
  (stairs_variants "" "" "").map Prod.fst

/-- The 40 combinations of facing, half and shape named by the spec,
enumerated as `facing=F,half=H,shape=S` key texts. -/
def stairsCombos : List String :=
  (["east", "west", "south", "north"].map (fun f =>
    (["bottom", "top"].map (fun h =>
      ["straight", "inner_left", "inner_right", "outer_left", "outer_right"].map (fun s =>
        "facing=" ++ f ++ ",half=" ++ h ++ ",shape=" ++ s))).flatten)).flatten

/-! ## Helper lemmas -/

theorem splitAtFirst_eq_some {c : Char} {l a b : List Char}
    (h : splitAtFirst c l = some (a, b)) : l = a ++ c :: b ∧ c ∉ a := by
  induction l generalizing a b with
  | nil => simp [splitAtFirst] at h
  | cons x xs ih =>
    by_cases hx : x = c
    · simp [splitAtFirst, hx] at h
      obtain ⟨ha, hb⟩ := h
      subst ha; subst hb; subst hx
      simp
    · simp only [splitAtFirst, if_neg hx] at h
      cases heq : splitAtFirst c xs with
      | none => rw [heq] at h; simp at h
      | some ab =>
        obtain ⟨a', b'⟩ := ab
        rw [heq] at h
        simp at h
        obtain ⟨ha, hb⟩ := h
        obtain ⟨hl, hm⟩ := ih heq
        subst ha; subst hb
        constructor
        · simp [hl]
        · simp [List.mem_cons, hx]
          exact ⟨fun hc => hx hc.symm, hm⟩

theorem splitAtFirst_eq_none {c : Char} {l : List Char}
    (h : splitAtFirst c l = none) : c ∉ l := by
  induction l with
  | nil => simp
  | cons x xs ih =>
    by_cases hx : x = c
    · simp [splitAtFirst, hx] at h
    · simp only [splitAtFirst, if_neg hx] at h
      cases heq : splitAtFirst c xs with
      | none =>
        intro hmem
        rcases List.mem_cons.mp hmem with h1 | h2
        · exact hx h1.symm
        · exact ih heq h2
      | some ab => obtain ⟨a', b'⟩ := ab; rw [heq] at h; simp at h

/-! ## Claim theorems -/

/-- Claim C1: for every identifier input (other than an already-resolved
`ResourceLocation`) whose joined path text contains a `:`,
`resource_location` splits the joined text at the first occurrence of `:`
into (domain, path), discarding any caller-supplied default domain; and
for every such input with no `:` present, the resolved domain equals the
caller-supplied default domain, or `minecraft` when none is supplied. -/
theorem resource_location_domain_resolution (d : String) (data : RId)
    (hnot : data.isRL = false) :
    (':' ∈ (joined_path data).toList →
      ∃ pre post, (joined_path data).toList = pre ++ ':' :: post ∧ ':' ∉ pre ∧
        ∀ dom : Option String,
          resource_location dom data = ⟨String.mk pre, String.mk post⟩) ∧
    (':' ∉ (joined_path data).toList →
      resource_location (some d) data = ⟨d, joined_path data⟩ ∧
      resource_location none data = ⟨"minecraft", joined_path data⟩) := by
  cases data with
  | rl dd pp => simp [RId.isRL] at hnot
  | str s =>
    constructor
    · intro hc
      cases heq : splitAtFirst ':' (joined_path (RId.str s)).toList with
      | none => exact absurd hc (splitAtFirst_eq_none heq)
      | some ab =>
        obtain ⟨pre, post⟩ := ab
        obtain ⟨hl, hm⟩ := splitAtFirst_eq_some heq
        refine ⟨pre, post, hl, hm, fun dom => ?_⟩
        have heq2 : splitAtFirst ':' (joined_path (RId.str s)).data = some (pre, post) := heq
        simp [resource_location, heq2]
    · intro hc
      cases heq : splitAtFirst ':' (joined_path (RId.str s)).toList with
      | none =>
        have heq2 : splitAtFirst ':' (joined_path (RId.str s)).data = none := heq
        simp [resource_location, heq2, Option.getD]
      | some ab =>
        obtain ⟨pre, post⟩ := ab
        obtain ⟨hl, _⟩ := splitAtFirst_eq_some heq
        rw [hl] at hc
        simp at hc
  | seq xs =>
    constructor
    · intro hc
      cases heq : splitAtFirst ':' (joined_path (RId.seq xs)).toList with
      | none => exact absurd hc (splitAtFirst_eq_none heq)
      | some ab =>
        obtain ⟨pre, post⟩ := ab
        obtain ⟨hl, hm⟩ := splitAtFirst_eq_some heq
        refine ⟨pre, post, hl, hm, fun dom => ?_⟩
        have heq2 : splitAtFirst ':' (joined_path (RId.seq xs)).data = some (pre, post) := heq
        simp [resource_location, heq2]
    · intro hc
      cases heq : splitAtFirst ':' (joined_path (RId.seq xs)).toList with
      | none =>
        have heq2 : splitAtFirst ':' (joined_path (RId.seq xs)).data = none := heq
        simp [resource_location, heq2, Option.getD]
      | some ab =>
        obtain ⟨pre, post⟩ := ab
        obtain ⟨hl, _⟩ := splitAtFirst_eq_some heq
        rw [hl] at hc
        simp at hc

/-- Witness for C1 at concrete inputs: `bar/baz` has no colon, so the
default domain (`foo`, or `minecraft` when unspecified) is used. -/
theorem resource_location_domain_resolution_witness :
    resource_location (some "foo") (RId.str "bar/baz") = ⟨"foo", "bar/baz"⟩ ∧
    resource_location none (RId.str "bar/baz") = ⟨"minecraft", "bar/baz"⟩ := by
  have h := (resource_location_domain_resolution "foo" (RId.str "bar/baz") rfl).2
    (by decide)
  exact h

/-- Counterexample to claim C2: resolving the single string `a:b:c` does
NOT yield path `b`; the first-colon split keeps `b:c` as the path. -/
theorem resource_location_abc_counterexample :
    resource_location none (RId.str "a:b:c") ≠ ⟨"a", "b"⟩ := by
  have h : resource_location none (RId.str "a:b:c") = ⟨"a", "b:c"⟩ := rfl
  rw [h]
  intro hcontra
  have := congrArg ResourceLocation.path hcontra
  simp at this

/-- Claim C2 (amended): resolving `a:b:c` yields domain `a` and path
`b:c` (split at the first colon only), and splitting happens on the
fully-joined string, not per-segment: the segments `a:b`, `c` join to
`a:b/c` and resolve to domain `a`, path `b/c`. -/
theorem resource_location_abc_amended :
    resource_location none (RId.str "a:b:c") = ⟨"a", "b:c"⟩ ∧
    joined_path (RId.seq [RId.str "a:b", RId.str "c"]) = "a:b/c" ∧
    resource_location none (RId.seq [RId.str "a:b", RId.str "c"]) = ⟨"a", "b/c"⟩ :=
  ⟨rfl, rfl, rfl⟩

/-- Counterexample to claim C7: `resource_location` performs no emptiness
validation; a leading colon gives an empty domain and a trailing colon an
empty path, both accepted without error. -/
theorem resource_location_empty_counterexample :
    (resource_location none (RId.str ":a")).domain = "" ∧
    (resource_location (some "minecraft") (RId.str "a:")).path = "" :=
  ⟨rfl, rfl⟩

/-- Claim C7 (amended): domain and path of a resolved identifier need not
be non-empty in general (a joined text with a leading or trailing colon,
or an empty input, yields an empty component); they are non-empty
whenever the joined text is non-empty, contains no colon, and the
effective default domain is non-empty. -/
theorem resource_location_nonempty_amended (dom : Option String) (data : RId)
    (h1 : data.isRL = false) (h2 : ':' ∉ (joined_path data).toList)
    (h3 : joined_path data ≠ "") (h4 : dom.getD "minecraft" ≠ "") :
    (resource_location dom data).domain ≠ "" ∧
    (resource_location dom data).path ≠ "" := by
  have key : resource_location dom data = ⟨dom.getD "minecraft", joined_path data⟩ := by
    cases data with
    | rl dd pp => simp [RId.isRL] at h1
    | str s =>
      cases heq : splitAtFirst ':' (joined_path (RId.str s)).toList with
      | none =>
        have heq2 : splitAtFirst ':' (joined_path (RId.str s)).data = none := heq
        simp [resource_location, heq2]
      | some ab =>
        obtain ⟨pre, post⟩ := ab
        obtain ⟨hl, _⟩ := splitAtFirst_eq_some heq
        rw [hl] at h2
        simp at h2
    | seq xs =>
      cases heq : splitAtFirst ':' (joined_path (RId.seq xs)).toList with
      | none =>
        have heq2 : splitAtFirst ':' (joined_path (RId.seq xs)).data = none := heq
        simp [resource_location, heq2]
      | some ab =>
        obtain ⟨pre, post⟩ := ab
        obtain ⟨hl, _⟩ := splitAtFirst_eq_some heq
        rw [hl] at h2
        simp at h2
  rw [key]
  exact ⟨h4, h3⟩

/-- Witness for the amended C7 at a concrete input. -/
theorem resource_location_nonempty_amended_witness :
    (resource_location (some "foo") (RId.str "x")).domain ≠ "" ∧
    (resource_location (some "foo") (RId.str "x")).path ≠ "" :=
  resource_location_nonempty_amended (some "foo") (RId.str "x") rfl (by decide)
    (by decide) (by decide)

/-- Unfolding lemmas for `flattenJList`, one per head shape (the
definition is compiled by well-founded recursion, so these drive both
concrete evaluation and the inductive proofs below). -/
theorem flattenJList_nil : flattenJList [] = [] := by
  simp [flattenJList]

theorem flattenJList_cons_arr (ys rest : List Json) :
    flattenJList (Json.arr ys :: rest) = flattenJList ys ++ flattenJList rest := by
  simp [flattenJList]

theorem flattenJList_cons_null (rest : List Json) :
    flattenJList (Json.null :: rest) = Json.null :: flattenJList rest := by
  simp [flattenJList]

theorem flattenJList_cons_str (s : String) (rest : List Json) :
    flattenJList (Json.str s :: rest) = Json.str s :: flattenJList rest := by
  simp [flattenJList]

theorem flattenJList_cons_num (n : Int) (rest : List Json) :
    flattenJList (Json.num n :: rest) = Json.num n :: flattenJList rest := by
  simp [flattenJList]

theorem flattenJList_cons_bool (b : Bool) (rest : List Json) :
    flattenJList (Json.bool b :: rest) = Json.bool b :: flattenJList rest := by
  simp [flattenJList]

theorem flattenJList_cons_obj (kvs : List (String × Json)) (rest : List Json) :
    flattenJList (Json.obj kvs :: rest) = Json.obj kvs :: flattenJList rest := by
  simp [flattenJList]

/-- Counterexample to claim C4: `item_stack_list([2, "minecraft:stick"])`
does not return the count-merged stack; the sequence branch normalizes
each element separately and `item_stack(2)` raises. -/
theorem item_stack_list_pair_counterexample :
    item_stack_list (Json.arr [Json.num 2, Json.str "minecraft:stick"]) =
      Except.error "Unknown object 2 at item_stack" ∧
    item_stack_list (Json.arr [Json.num 2, Json.str "minecraft:stick"]) ≠
      Except.ok [Json.obj [("count", Json.num 2), ("item", Json.str "minecraft:stick")]] := by
  have h : item_stack_list (Json.arr [Json.num 2, Json.str "minecraft:stick"]) =
      Except.error "Unknown object 2 at item_stack" := rfl
  exact ⟨h, by rw [h]; intro hc; exact Except.noConfusion hc⟩

/-- Claim C4 (amended): the count-merged form is produced by `item_stack`
on the 2-element sequence, so `item_stack_list` returns the singleton
count-merged mapping when given the 2-element sequence nested inside a
list; applied directly to `[2, "minecraft:stick"]` it raises instead. -/
theorem item_stack_pair_amended :
    item_stack (Json.arr [Json.num 2, Json.str "minecraft:stick"]) =
      Except.ok [("count", Json.num 2), ("item", Json.str "minecraft:stick")] ∧
    item_stack_list (Json.arr [Json.arr [Json.num 2, Json.str "minecraft:stick"]]) =
      Except.ok [Json.obj [("count", Json.num 2), ("item", Json.str "minecraft:stick")]] := by
  constructor
  · rfl
  · have h : item_stack_list (Json.arr [Json.arr [Json.num 2, Json.str "minecraft:stick"]]) =
        Except.ok (flattenJList
          [Json.obj [("count", Json.num 2), ("item", Json.str "minecraft:stick")]]) := rfl
    rw [h, flattenJList_cons_obj, flattenJList_nil]

/-- Claim C10: `recipe_condition` applied to `None` returns `None`
instead of raising, unlike the other dialect normalizers, which all
reject `None` with an unknown-object error. -/
theorem recipe_condition_null_vs_others :
    (∀ b, recipe_condition Json.null b = Except.ok Json.null) ∧
    (∃ e, item_stack Json.null = Except.error e) ∧
    (∃ e, item_stack_list Json.null = Except.error e) ∧
    (∀ c, ∃ e, item_stack_dict Json.null c = Except.error e) ∧
    (∃ e, item_model_textures Json.null = Except.error e) ∧
    (∀ t, ∃ e, loot_pool_list Json.null t = Except.error e) ∧
    (∃ e, loot_entry_list Json.null = Except.error e) ∧
    (∃ e, loot_function_list Json.null = Except.error e) ∧
    (∃ e, loot_condition_list Json.null = Except.error e) :=
  ⟨fun _ => rfl, ⟨_, rfl⟩, ⟨_, rfl⟩, fun _ => ⟨_, rfl⟩, ⟨_, rfl⟩, fun _ => ⟨_, rfl⟩,
   ⟨_, rfl⟩, ⟨_, rfl⟩, ⟨_, rfl⟩⟩

/-- Counterexample to claim C3: the mappings returned by the loot
normalizers do contain `None` values for absent optional fields — a
non-`block` bare-string pool carries `conditions: None`, and a dict loot
entry carries `None` for each unspecified optional field. -/
theorem loot_normalizer_null_counterexample :
    (∃ kvs, loot_pool_list (Json.str "minecraft:dirt") "entity" = Except.ok [Json.obj kvs] ∧
      jlookup kvs "conditions" = some Json.null) ∧
    (∃ kvs, loot_entry_list (Json.obj [("name", Json.str "minecraft:dirt")]) =
        Except.ok [Json.obj kvs] ∧
      jlookup kvs "weight" = some Json.null) :=
  ⟨⟨_, rfl, rfl⟩, ⟨_, rfl, rfl⟩⟩

/-- Claim C5: for every bare-string input `s` and loot kind,
`loot_pool_list` returns exactly one pool whose `rolls` is 1, whose
`entries` is the single item entry for `s` (or the tag entry when `s`
carries the `tag!` marker), and whose `conditions` is the
survives-explosion condition for kind `block` and the absent marker
(no implicit condition) for every other kind. -/
theorem loot_pool_list_string_pool (s kind : String) :
    ∃ kvs, loot_pool_list (Json.str s) kind = Except.ok [Json.obj kvs] ∧
      jlookup kvs "rolls" = some (Json.num 1) ∧
      jlookup kvs "entries" = some (Json.arr
        (if s.take 4 = "tag!" then
          [Json.obj [("type", Json.str "minecraft:tag"), ("name", Json.str (s.drop 4))]]
        else
          [Json.obj [("type", Json.str "minecraft:item"), ("name", Json.str s)]])) ∧
      jlookup kvs "conditions" = some
        (if kind = "block" then
          Json.arr [Json.obj [("condition", Json.str "minecraft:survives_explosion")]]
        else Json.null) := by
  by_cases ht : s.take 4 = "tag!" <;> by_cases hk : kind = "block"
  · have hpool : loot_pool_list (Json.str s) kind = Except.ok [Json.obj
        [("name", Json.str "loot_pool"), ("rolls", Json.num 1),
         ("entries", Json.arr [Json.obj
           [("type", Json.str "minecraft:tag"), ("name", Json.str (s.drop 4))]]),
         ("conditions", Json.arr [Json.obj
           [("condition", Json.str "minecraft:survives_explosion")]])]] := by
      simp [loot_pool_list, loot_entry_list, loot_default_conditions, ht, hk]
      rfl
    exact ⟨_, hpool, rfl, by rw [if_pos ht]; rfl, by rw [if_pos hk]; rfl⟩
  · have hpool : loot_pool_list (Json.str s) kind = Except.ok [Json.obj
        [("name", Json.str "loot_pool"), ("rolls", Json.num 1),
         ("entries", Json.arr [Json.obj
           [("type", Json.str "minecraft:tag"), ("name", Json.str (s.drop 4))]]),
         ("conditions", Json.null)]] := by
      simp [loot_pool_list, loot_entry_list, loot_default_conditions, ht, hk]
      rfl
    exact ⟨_, hpool, rfl, by rw [if_pos ht]; rfl, by rw [if_neg hk]; rfl⟩
  · have hpool : loot_pool_list (Json.str s) kind = Except.ok [Json.obj
        [("name", Json.str "loot_pool"), ("rolls", Json.num 1),
         ("entries", Json.arr [Json.obj
           [("type", Json.str "minecraft:item"), ("name", Json.str s)]]),
         ("conditions", Json.arr [Json.obj
           [("condition", Json.str "minecraft:survives_explosion")]])]] := by
      simp [loot_pool_list, loot_entry_list, loot_default_conditions, ht, hk]
      rfl
    exact ⟨_, hpool, rfl, by rw [if_neg ht]; rfl, by rw [if_pos hk]; rfl⟩
  · have hpool : loot_pool_list (Json.str s) kind = Except.ok [Json.obj
        [("name", Json.str "loot_pool"), ("rolls", Json.num 1),
         ("entries", Json.arr [Json.obj
           [("type", Json.str "minecraft:item"), ("name", Json.str s)]]),
         ("conditions", Json.null)]] := by
      simp [loot_pool_list, loot_entry_list, loot_default_conditions, ht, hk]
      rfl
    exact ⟨_, hpool, rfl, by rw [if_neg ht]; rfl, by rw [if_neg hk]; rfl⟩

/-- Claim C6: `recipe_condition` turns a string `s` into `[{type: s}]`,
wraps a mapping into a single-element list, and for a sequence recurses
per element in strict mode, so a nested sequence inside the top-level
sequence is rejected with an unrecognized-input error (and a sequence is
always rejected in strict mode): only one level of list processing is
permitted at the top. -/
theorem recipe_condition_shapes :
    (∀ (s : String) (b : Bool),
      recipe_condition (Json.str s) b = Except.ok (Json.arr [Json.obj [("type", Json.str s)]])) ∧
    (∀ (kvs : List (String × Json)) (b : Bool),
      recipe_condition (Json.obj kvs) b = Except.ok (Json.arr [Json.obj kvs])) ∧
    (∀ ys : List Json, ∃ e, recipe_condition (Json.arr ys) true = Except.error e) ∧
    (∀ (xs ys : List Json), Json.arr ys ∈ xs →
      ∃ e, recipe_condition (Json.arr xs) false = Except.error e) := by
  have hseq : ∀ (xs ys : List Json), Json.arr ys ∈ xs →
      ∃ e, recipe_condition_seq xs = Except.error e := by
    intro xs ys hmem
    induction xs with
    | nil => simp at hmem
    | cons hd tl ih =>
      rcases List.mem_cons.mp hmem with hh | ht
    
      · subst hh
        refine ⟨"Unknown object " ++ pyStr (Json.arr ys) ++ " at recipe_condition", ?_⟩
        simp [recipe_condition_seq, recipe_condition]
        rfl
      · cases hr : recipe_condition hd true with
        | error e => exact ⟨e, by simp [recipe_condition_seq, hr]; rfl⟩
        | ok r =>
          obtain ⟨e, he⟩ := ih ht
          exact ⟨e, by simp [recipe_condition_seq, hr, he]; rfl⟩
  refine ⟨fun s b => rfl, fun kvs b => rfl, fun ys => ⟨_, rfl⟩, ?_⟩
  intro xs ys hmem
  obtain ⟨e, he⟩ := hseq xs ys hmem
  exact ⟨e, by simp [recipe_condition, he]; rfl⟩

/-- Witness for C6 at concrete inputs: a string in strict mode, and a
top-level sequence containing a nested sequence being rejected. -/
theorem recipe_condition_shapes_witness :
    recipe_condition (Json.str "forge:mod_loaded") true =
      Except.ok (Json.arr [Json.obj [("type", Json.str "forge:mod_loaded")]]) ∧
    (∃ e, recipe_condition (Json.arr [Json.str "a", Json.arr [Json.str "b"]]) false =
      Except.error e) :=
  ⟨recipe_condition_shapes.1 "forge:mod_loaded" true,
   recipe_condition_shapes.2.2.2 [Json.str "a", Json.arr [Json.str "b"]] [Json.str "b"]
     (by simp)⟩

theorem flattenJList_append (a b : List Json) :
    flattenJList (a ++ b) = flattenJList a ++ flattenJList b := by
  induction a with
  | nil => simp [flattenJList_nil]
  | cons x rest ih =>
    cases x with
    | arr ys => simp [flattenJList_cons_arr, ih]
    | null => simp [flattenJList_cons_null, ih]
    | str s => simp [flattenJList_cons_str, ih]
    | num n => simp [flattenJList_cons_num, ih]
    | bool bb => simp [flattenJList_cons_bool, ih]
    | obj kvs => simp [flattenJList_cons_obj, ih]

theorem flattenJList_no_arr (l : List Json) :
    ∀ x ∈ flattenJList l, ∀ ys, x ≠ Json.arr ys := by
  induction l using flattenJList.induct with
  | case1 => simp [flattenJList_nil]
  | case2 ys rest ihy ihr =>
    intro x hx zs
    rw [flattenJList_cons_arr] at hx
    rcases List.mem_append.mp hx with h1 | h2
    · exact ihy x h1 zs
    · exact ihr x h2 zs
  | case3 x rest hx ihr =>
    intro y hy zs
    have hiff : flattenJList (x :: rest) = x :: flattenJList rest := by
      cases x with
      | arr ys => exact absurd rfl (hx ys)
      | null => exact flattenJList_cons_null rest
      | str s => exact flattenJList_cons_str s rest
      | num n => exact flattenJList_cons_num n rest
      | bool bb => exact flattenJList_cons_bool bb rest
      | obj kvs => exact flattenJList_cons_obj kvs rest
    rw [hiff] at hy
    rcases List.mem_cons.mp hy with h1 | h2
    · subst h1
      intro hcontra
      exact (hx zs) hcontra
    · exact ihr y h2 zs

theorem flattenJList_of_flat (l : List Json)
    (h : ∀ x ∈ l, ∀ ys, x ≠ Json.arr ys) : flattenJList l = l := by
  induction l with
  | nil => exact flattenJList_nil
  | cons x rest ih =>
    have hrest : flattenJList rest = rest :=
      ih (fun y hy => h y (List.mem_cons_of_mem x hy))
    cases x with
    | arr ys => exact absurd rfl (h (Json.arr ys) (List.mem_cons_self _ _) ys)
    | null => rw [flattenJList_cons_null, hrest]
    | str s => rw [flattenJList_cons_str, hrest]
    | num n => rw [flattenJList_cons_num, hrest]
    | bool bb => rw [flattenJList_cons_bool, hrest]
    | obj kvs => rw [flattenJList_cons_obj, hrest]

theorem flattenJList_idem (l : List Json) :
    flattenJList (flattenJList l) = flattenJList l :=
  flattenJList_of_flat (flattenJList l) (flattenJList_no_arr l)

/-- Claim C9: flattening is associative — replacing any nested
sub-sequence by its own flattening before flattening the whole sequence
does not change the result (strings are leaves and are never descended
into), and flattening is idempotent. -/
theorem flattenJList_assoc (pre post cs : List Json) :
    flattenJList (pre ++ Json.arr (flattenJList cs) :: post) =
      flattenJList (pre ++ Json.arr cs :: post) ∧
    flattenJList (flattenJList (pre ++ Json.arr cs :: post)) =
      flattenJList (pre ++ Json.arr cs :: post) := by
  constructor
  · rw [flattenJList_append, flattenJList_append, flattenJList_cons_arr,
      flattenJList_cons_arr, flattenJList_idem]
  · exact flattenJList_idem _

/-- Claim C8: for all model-path inputs, the stairs variant table has
exactly 40 keys, the keys are pairwise distinct, and the key set is
exactly the 40 combinations of facing in east/west/south/north, half in
bottom/top and shape in straight/inner_left/inner_right/outer_left/
outer_right (stated as a permutation of the combination enumeration). -/
theorem stairs_variants_keys (a b c : String) :
    ((stairs_variants a b c).map Prod.fst).length = 40 ∧
    ((stairs_variants a b c).map Prod.fst).Nodup ∧
    List.Perm ((stairs_variants a b c).map Prod.fst) stairsCombos := by
  have h : (stairs_variants a b c).map Prod.fst = stairsKeys := rfl
  rw [h]
  refine ⟨by decide, by decide, by decide⟩

theorem del_none_noNull_aux (n : Nat) :
    (∀ j : Json, sizeOf j ≤ n → ∀ j', del_none j = Except.ok j' → noNull j' = true) ∧
    (∀ kvs : List (String × Json), sizeOf kvs ≤ n →
      ∀ r, del_none_obj kvs = Except.ok r → noNullObj r = true) ∧
    (∀ xs : List Json, sizeOf xs ≤ n →
      ∀ r, del_none_arr xs = Except.ok r → noNullArr r = true) := by
  induction n with
  | zero =>
    refine ⟨fun j hj => ?_, fun kvs hk => ?_, fun xs hx => ?_⟩
    · cases j <;> simp_arith at hj
    · cases kvs <;> simp_arith at hk
    · cases xs <;> simp_arith at hx
  | succ n ih =>
    obtain ⟨ihj, ihk, ihx⟩ := ih
    refine ⟨fun j hj j' hdel => ?_, fun kvs hk r hdel => ?_, fun xs hx r hdel => ?_⟩
    · cases j with
      | null => simp [del_none] at hdel
      | str s => simp [del_none] at hdel; subst hdel; rfl
      | num m => simp [del_none] at hdel; subst hdel; rfl
      | bool bb => simp [del_none] at hdel; subst hdel; rfl
      | obj kvs =>
        simp only [del_none] at hdel
        cases hobj : del_none_obj kvs with
        | error e => rw [hobj] at hdel; exact Except.noConfusion hdel
        | ok r =>
          rw [hobj] at hdel
          have hinj := Except.ok.inj hdel
          subst hinj
          have hsz : sizeOf kvs ≤ n := by simp_arith at hj; omega
          exact ihk kvs hsz r hobj
      | arr xs =>
        simp only [del_none] at hdel
        cases harr : del_none_arr xs with
        | error e => rw [harr] at hdel; exact Except.noConfusion hdel
        | ok r =>
          rw [harr] at hdel
          have hinj := Except.ok.inj hdel
          subst hinj
          have hsz : sizeOf xs ≤ n := by simp_arith at hj; omega
          exact ihx xs hsz r harr
    · cases kvs with
      | nil => simp [del_none_obj] at hdel; subst hdel; rfl
      | cons p rest =>
        obtain ⟨k, v⟩ := p
        have hszr : sizeOf rest ≤ n := by simp_arith at hk ⊢; omega
        cases v with
        | null =>
          simp only [del_none_obj] at hdel
          exact ihk rest hszr r hdel
        | str s =>
          simp only [del_none_obj] at hdel
          cases hrest : del_none_obj rest with
          | error e => rw [hrest] at hdel; exact Except.noConfusion hdel
          | ok rr =>
            rw [hrest] at hdel
            have hinj := Except.ok.inj hdel
            subst hinj
            simp [noNullObj, noNull]
            exact ihk rest hszr rr hrest
        | num m =>
          simp only [del_none_obj] at hdel
          cases hrest : del_none_obj rest with
          | error e => rw [hrest] at hdel; exact Except.noConfusion hdel
          | ok rr =>
            rw [hrest] at hdel
            have hinj := Except.ok.inj hdel
            subst hinj
            simp [noNullObj, noNull]
            exact ihk rest hszr rr hrest
        | bool bb =>
          simp only [del_none_obj] at hdel
          cases hrest : del_none_obj rest with
          | error e => rw [hrest] at hdel; exact Except.noConfusion hdel
          | ok rr =>
            rw [hrest] at hdel
            have hinj := Except.ok.inj hdel
            subst hinj
            simp [noNullObj, noNull]
            exact ihk rest hszr rr hrest
        | obj okvs =>
          simp only [del_none_obj] at hdel
          cases hv : del_none (Json.obj okvs) with
          | error e => rw [hv] at hdel; exact Except.noConfusion hdel
          | ok v2 =>
            rw [hv] at hdel
            cases hrest : del_none_obj rest with
            | error e => rw [hrest] at hdel; exact Except.noConfusion hdel
            | ok rr =>
              rw [hrest] at hdel
              have hinj := Except.ok.inj hdel
              subst hinj
              have hszv : sizeOf (Json.obj okvs) ≤ n := by simp_arith at hk ⊢; omega
              simp [noNullObj]
              exact ⟨ihj (Json.obj okvs) hszv v2 hv, ihk rest hszr rr hrest⟩
        | arr oxs =>
          simp only [del_none_obj] at hdel
          cases hv : del_none (Json.arr oxs) with
          | error e => rw [hv] at hdel; exact Except.noConfusion hdel
          | ok v2 =>
            rw [hv] at hdel
            cases hrest : del_none_obj rest with
            | error e => rw [hrest] at hdel; exact Except.noConfusion hdel
            | ok rr =>
              rw [hrest] at hdel
              have hinj := Except.ok.inj hdel
              subst hinj
              have hszv : sizeOf (Json.arr oxs) ≤ n := by simp_arith at hk ⊢; omega
              simp [noNullObj]
              exact ⟨ihj (Json.arr oxs) hszv v2 hv, ihk rest hszr rr hrest⟩
    · cases xs with
      | nil => simp [del_none_arr] at hdel; subst hdel; rfl
      | cons v rest =>
        have hszr : sizeOf rest ≤ n := by simp_arith at hx ⊢; omega
        cases v with
        | null =>
          simp only [del_none_arr] at hdel
          exact ihx rest hszr r hdel
        | str s =>
          simp only [del_none_arr] at hdel
          cases hrest : del_none_arr rest with
          | error e => rw [hrest] at hdel; exact Except.noConfusion hdel
          | ok rr =>
            rw [hrest] at hdel
            have hinj := Except.ok.inj hdel
            subst hinj
            simp [noNullArr, noNull]
            exact ihx rest hszr rr hrest
        | num m =>
          simp only [del_none_arr] at hdel
          cases hrest : del_none_arr rest with
          | error e => rw [hrest] at hdel; exact Except.noConfusion hdel
          | ok rr =>
            rw [hrest] at hdel
            have hinj := Except.ok.inj hdel
            subst hinj
            simp [noNullArr, noNull]
            exact ihx rest hszr rr hrest
        | bool bb =>
          simp only [del_none_arr] at hdel
          cases hrest : del_none_arr rest with
          | error e => rw [hrest] at hdel; exact Except.noConfusion hdel
          | ok rr =>
            rw [hrest] at hdel
            have hinj := Except.ok.inj hdel
            subst hinj
            simp [noNullArr, noNull]
            exact ihx rest hszr rr hrest
        | obj okvs =>
          simp only [del_none_arr] at hdel
          cases hv : del_none (Json.obj okvs) with
          | error e => rw [hv] at hdel; exact Except.noConfusion hdel
          | ok v2 =>
            rw [hv] at hdel
            cases hrest : del_none_arr rest with
            | error e => rw [hrest] at hdel; exact Except.noConfusion hdel
            | ok rr =>
              rw [hrest] at hdel
              have hinj := Except.ok.inj hdel
              subst hinj
              have hszv : sizeOf (Json.obj okvs) ≤ n := by simp_arith at hx ⊢; omega
              simp [noNullArr]
              exact ⟨ihj (Json.obj okvs) hszv v2 hv, ihx rest hszr rr hrest⟩
        | arr oxs =>
          simp only [del_none_arr] at hdel
          cases hv : del_none (Json.arr oxs) with
          | error e => rw [hv] at hdel; exact Except.noConfusion hdel
          | ok v2 =>
            rw [hv] at hdel
            cases hrest : del_none_arr rest with
            | error e => rw [hrest] at hdel; exact Except.noConfusion hdel
            | ok rr =>
              rw [hrest] at hdel
              have hinj := Except.ok.inj hdel
              subst hinj
              have hszv : sizeOf (Json.arr oxs) ≤ n := by simp_arith at hx ⊢; omega
              simp [noNullArr]
              exact ⟨ihj (Json.arr oxs) hszv v2 hv, ihx rest hszr rr hrest⟩

/-- Claim C3 (amended): the loot normalizers store the absent marker
`None` for absent optional fields in the mappings they return; the sink's
`del_none` pass strips every such placeholder before serialization, so
that whenever `del_none` succeeds its output contains no `None` value
anywhere. -/
theorem del_none_strips_null (j j' : Json) (h : del_none j = Except.ok j') :
    noNull j' = true :=
  (del_none_noNull_aux (sizeOf j)).1 j (Nat.le_refl _) j' h

/-- Witness for the amended C3: stripping the `entity`-kind bare-string
loot pool (whose `conditions` field is the `None` placeholder) leaves a
mapping with no `None` values. -/
theorem del_none_strips_null_witness :
    noNull (Json.obj [("name", Json.str "loot_pool"), ("rolls", Json.num 1),
      ("entries", Json.arr [Json.obj
        [("type", Json.str "minecraft:item"), ("name", Json.str "minecraft:dirt")]])]) = true :=
  del_none_strips_null
    (Json.obj [("name", Json.str "loot_pool"), ("rolls", Json.num 1),
      ("entries", Json.arr [Json.obj
        [("type", Json.str "minecraft:item"), ("name", Json.str "minecraft:dirt")]]),
      ("conditions", Json.null)])
    (Json.obj [("name", Json.str "loot_pool"), ("rolls", Json.num 1),
      ("entries", Json.arr [Json.obj
        [("type", Json.str "minecraft:item"), ("name", Json.str "minecraft:dirt")]])])
    (by simp [del_none, del_none_obj, del_none_arr]; rfl)
